import Mathlib

set_option maxHeartbeats 1000000

/- Shallow embedding of the owtorg/logger Go package.

   The package defines a Logger interface, a LogBase holding a list of
   pending initialization callbacks, three backends (FmtLog writing via
   fmt.Println to the standard stream, StdLog writing via log.Println
   through the process-global log output, FileLog appending to a file)
   and a composite Stack that fans every call out to an ordered member
   sequence of interface values.

   Modelling choices, each keyed to the source:
   - Callback values (Go interface values handed to OnInit) are modelled
     by the inductive CB below: one constructor per function shape the
     per-type Init methods type-assert against, plus a constructor for
     every other value. Callback bodies are end-user code external to the
     repository; each callback carries a numeric tag making its invocation
     observable, and a file-logger callback additionally carries the path
     override it performs, the only configuration the package reads back.
   - Logger values stored in a Stack (Go interface values) are modelled by
     the inductive Val: the four concrete logger types of the package,
     nested composites included, plus a constructor nonLogger for any
     value, nil included, whose type assertion to Logger fails.
   - Arguments of variadic logging calls (Go interface values) are
     modelled by their fmt %v rendering, so an argument list is a
     List String.
   - Writing is modelled by an event trace (inductive Ev) plus a global
     state GState holding the current process-global log output, which
     log.SetOutput replaces. A Go panic is modelled as Except.error (),
     distinct from the error values Init returns.
   - The log package writes a flag-dependent header before each line; the
     repository test suite runs with log.SetFlags(0), and we model the
     line content passed to the writer, as the tests observe it.
-/

/-- Callback values: one constructor per function shape that some Init
method of the package type-asserts against, identified by a numeric tag;
onFile carries the path override the callback performs, if any; other
stands for every interface value of any different shape. -/
inductive CB where
  | onFmt (tag : Nat)
  | onStd (tag : Nat)
  | onFile (tag : Nat) (newPath : Option String)
  | onLogger (tag : Nat)
  | other (tag : Nat)
deriving DecidableEq

/-- Tag of a callback value, used to observe invocation order. -/
def cbTag : CB → Nat
  | .onFmt t => t
  | .onStd t => t
  | .onFile t _ => t
  | .onLogger t => t
  | .other t => t

/-- Shape test performed by FmtLog.Init: fn.(func(s *FmtLog)). -/
def isFmtCB : CB → Bool
  | .onFmt _ => true
  | _ => false

/-- Shape test performed by StdLog.Init: fn.(func(s *StdLog)). -/
def isStdCB : CB → Bool
  | .onStd _ => true
  | _ => false

/-- Shape test performed by FileLog.Init: v.(func(s *FileLog)). -/
def isFileCB : CB → Bool
  | .onFile _ _ => true
  | _ => false

/-- Shape test performed by Stack.Init: fn.(func(s Logger)). -/
def isLoggerCB : CB → Bool
  | .onLogger _ => true
  | _ => false

/-- Common loop of FmtLog.Init, StdLog.Init and Stack.Init: iterate the
registered callbacks in order; at the first callback whose type assertion
(the shape test ok) fails, return the error with the given message;
otherwise invoke each callback. The success value is the trace of invoked
callback tags, in order. -/
def runCBs (ok : CB → Bool) (msg : String) : List CB → Except String (List Nat)
  | [] => .ok []
  | cb :: rest =>
      if ok cb then (runCBs ok msg rest).map fun ts => cbTag cb :: ts
      else .error msg

/-- FmtLog.Init: run the callbacks under the func(s *FmtLog) assertion;
the source returns the message below on a shape mismatch. -/
def fmtInit (l : List CB) : Except String (List Nat) :=
  runCBs isFmtCB "Init callbacks must have signature func(s Logger)" l

/-- StdLog.Init: run the callbacks under the func(s *StdLog) assertion;
the source returns the same message as FmtLog.Init on a mismatch. -/
def stdInit (l : List CB) : Except String (List Nat) :=
  runCBs isStdCB "Init callbacks must have signature func(s Logger)" l

/-- Callback loop of Stack.Init, under the func(s Logger) assertion. -/
def stackCBRun (l : List CB) : Except String (List Nat) :=
  runCBs isLoggerCB "Init callbacks must have signature func(s Logger)" l

/-- Callback loop of FileLog.Init, threading the logPath field: each
callback of the right shape may override the current path; a callback of
any other shape stops the loop with the error of the source, the partial
path mutation kept. Success also returns the invocation trace. -/
def fileRunPath : List CB → String → String × Except String (List Nat)
  | [], p => (p, .ok [])
  | .onFile t np :: rest, p =>
      let res := fileRunPath rest (np.getD p)
      (res.1, res.2.map fun ts => t :: ts)
  | _ :: _, p => (p, .error "Init callbacks must have signature func(s *FileLog)")

/-- FileLog.Init: first set logPath to the fixed fallback ./owtorg-logger,
then run the callbacks, which may override it. -/
def fileInit (l : List CB) : String × Except String (List Nat) :=
  fileRunPath l "./owtorg-logger"

/-- Logger interface values as stored in a Stack: the four concrete
logger types of the package, each carrying its LogBase callback list
(field initializers), FileLog additionally its logPath and Stack its
member sequence; nonLogger is any interface value, nil included, that
does not implement Logger. -/
inductive Val where
  | fmtL (initializers : List CB)
  | stdL (initializers : List CB)
  | fileL (initializers : List CB) (logPath : String)
  | stackL (initializers : List CB) (loggers : List Val)
  | nonLogger

/-- Go type assertion v.(Logger): succeeds exactly on the logger values. -/
def isLoggerVal : Val → Bool
  | .nonLogger => false
  | _ => true

/-- Stack.Init: the source sets s.loggers = make([]interface, 1), a
one-element slice holding the nil interface value, and then runs the
callback loop; the field mutation happens before the loop, so it persists
even when the loop fails. -/
def stackInit (initializers : List CB) : List Val × Except String (List Nat) :=
  ([Val.nonLogger], stackCBRun initializers)

/-- Effect of calling Init on a logger value through the interface, as
Add and Set do: the mutated value paired with the Init result, the result
value erased to Unit since Add and Set never look at it. The nonLogger
case is unreachable from Add and Set, which assert v.(Logger) first. -/
def initVal : Val → Val × Except String Unit
  | .fmtL i => (.fmtL i, (fmtInit i).map fun _ => ())
  | .stdL i => (.stdL i, (stdInit i).map fun _ => ())
  | .fileL i _ =>
      let res := fileInit i
      (.fileL i res.1, res.2.map fun _ => ())
  | .stackL i _ =>
      let res := stackInit i
      (.stackL i res.1, res.2.map fun _ => ())
  | .nonLogger => (.nonLogger, .ok ())

/-- Loop shared by Stack.Add and Stack.Set: assert each supplied value to
Logger, panicking (Except.error ()) at the first failure, and call its
Init, discarding the returned error. The members are pointers in Go, so
the sequence the stack ends up holding consists of the initialized
values. -/
def initAll : List Val → Except Unit (List Val)
  | [] => .ok []
  | v :: rest =>
      if isLoggerVal v then (initAll rest).map fun l => (initVal v).1 :: l
      else .error ()

/-- Stack.Add: init every supplied logger, then append them all to the
existing member sequence. The Go method returns nothing; its only failure
mode is the panic of the type assertion. -/
def StackAdd (cur l : List Val) : Except Unit (List Val) :=
  (initAll l).map fun l2 => cur ++ l2

/-- Stack.Set: replace the member sequence with the supplied one, then
init every member in order. The Go method returns nothing; its only
failure mode is the panic of the type assertion. -/
def StackSet (l : List Val) : Except Unit (List Val) :=
  initAll l

/-- LogBase.OnInit: the source sets initializers to a fresh empty slice
and then appends the supplied callbacks, so the field becomes exactly the
supplied sequence. -/
def LogBaseOnInit (cur f : List CB) : List CB :=
  ([] : List CB) ++ f

/-- Destination of a write through the log package: the default standard
error stream, or a file handle with its path and closed status. -/
inductive LogWriter where
  | stdErr
  | fileH (path : String) (closed : Bool)
deriving DecidableEq

/-- Process-global mutable state: the current output of the log package,
replaced by log.SetOutput and read by log.Println. -/
structure GState where
  output : LogWriter
deriving DecidableEq

/-- Observable events of a logging call. -/
inductive Ev where
  | fsOpen (path : String)
  | setOutput (w : LogWriter)
  | writeStd (line : String)
  | writeLog (w : LogWriter) (line : String)
  | fsClose (path : String)
deriving DecidableEq

/-- Fmt rendering of the variadic argument slice: Go prints a slice as a
bracketed, space-separated list of the element renderings. -/
def renderSlice (v : List String) : String :=
  "[" ++ String.intercalate " " v ++ "]"

/-- Line produced by fmt.Println(level, v) and by log.Println(level, v):
the operands separated by one space, a newline appended. -/
def printlnLine (level : String) (v : List String) : String :=
  level ++ " " ++ renderSlice v ++ "\n"

/-- FmtLog.Log: fmt.Println(level, v), one write to the standard stream,
not affected by the log package output. -/
def FmtLogLog (level : String) (v : List String) : List Ev :=
  [.writeStd (printlnLine level v)]

/-- StdLog.Log: log.Println(level, v), one write through the current
process-global log output; the state is unchanged. -/
def StdLogLog (g : GState) (level : String) (v : List String) : List Ev × GState :=
  ([.writeLog g.output (printlnLine level v)], g)

/-- FileLog.Log: open the configured path for append (create if absent);
on failure, panic(0), modelled as Except.error (); on success, store the
handle, redirect the global log output to it, write the line through it,
and close it on return via defer, so at return the global output is that
same, now closed, handle. The parameter env tells which paths the
operating environment lets the process open. -/
def FileLogLog (env : String → Bool) (logPath : String) (g : GState)
    (level : String) (v : List String) : Except Unit (List Ev × GState) :=
  if env logPath then
    .ok ([.fsOpen logPath, .setOutput (.fileH logPath false),
          .writeLog (.fileH logPath false) (printlnLine level v),
          .fsClose logPath],
         { output := LogWriter.fileH logPath true })
  else .error ()

mutual

/-- Dispatch of a Log call on a logger interface value, as Stack.Log does
per member: assert the value to Logger, panicking on failure, then invoke
the Log of its dynamic type. Each severity method of every type forwards
to Log with its fixed label, so this also models the severity methods,
the level being the label. -/
def LoggerLog (env : String → Bool) : Val → GState → String → List String →
    Except Unit (List Ev × GState)
  | .fmtL _, g, level, v => .ok (FmtLogLog level v, g)
  | .stdL _, g, level, v => .ok (StdLogLog g level v)
  | .fileL _ p, g, level, v => FileLogLog env p g level v
  | .stackL _ ls, g, level, v => StackLog env ls g level v
  | .nonLogger, _, _, _ => .error ()

/-- Stack.Log: iterate the member sequence in order, invoking the
identical call on each member, the traces concatenated and the global
state threaded left to right. -/
def StackLog (env : String → Bool) : List Val → GState → String → List String →
    Except Unit (List Ev × GState)
  | [], g, _, _ => .ok ([], g)
  | m :: rest, g, level, v => do
      let (e1, g1) ← LoggerLog env m g level v
      let (e2, g2) ← StackLog env rest g1 level v
      .ok (e1 ++ e2, g2)

end

/-- Write events among the observable events. -/
def isWrite : Ev → Bool
  | .writeStd _ => true
  | .writeLog _ _ => true
  | _ => false

/-- Line carried by a write event. -/
def evLine : Ev → String
  | .writeStd s => s
  | .writeLog _ s => s
  | _ => ""

/-- Backend logger values: the three leaf types, excluding nested stacks
and non-loggers. -/
def isBackend : Val → Bool
  | .fmtL _ => true
  | .stdL _ => true
  | .fileL _ _ => true
  | _ => false

/-- Whether the environment lets a logger value write: only a file logger
whose path cannot be opened is stopped. -/
def fileOK (env : String → Bool) : Val → Bool
  | .fileL _ p => env p
  | _ => true

/-- When every callback passes the shape test, the loop succeeds and
invokes each callback, in registration order. -/
theorem runCBs_all_ok (ok : CB → Bool) (msg : String) (l : List CB)
    (h : ∀ cb ∈ l, ok cb = true) :
    runCBs ok msg l = .ok (l.map cbTag) := by
  induction l with
  | nil => simp [runCBs]
  | cons cb rest ih =>
    have hcb : ok cb = true := h cb (by simp)
    have hr := ih fun c hc => h c (by simp [hc])
    simp [runCBs, hcb, hr, Except.map]

/-- When some callback fails the shape test, the loop returns the error. -/
theorem runCBs_bad (ok : CB → Bool) (msg : String) (l : List CB)
    (h : ¬ ∀ cb ∈ l, ok cb = true) :
    runCBs ok msg l = .error msg := by
  induction l with
  | nil => simp at h
  | cons cb rest ih =>
    by_cases hcb : ok cb = true
    · have hrest : ¬ ∀ c ∈ rest, ok c = true := fun hall =>
        h fun c hc => by
          rcases List.mem_cons.mp hc with h1 | h2
          · exact h1 ▸ hcb
          · exact hall c h2
      simp [runCBs, hcb, ih hrest, Except.map]
    · simp [runCBs, hcb]

/-- The callback loop succeeds with the full invocation trace exactly when
every callback has the expected shape. -/
theorem runCBs_ok_iff (ok : CB → Bool) (msg : String) (l : List CB) :
    runCBs ok msg l = .ok (l.map cbTag) ↔ ∀ cb ∈ l, ok cb = true := by
  constructor
  · intro heq
    by_contra hbad
    rw [runCBs_bad ok msg l hbad] at heq
    exact Except.noConfusion heq
  · exact runCBs_all_ok ok msg l

/-- When every file-logger callback has the right shape, the FileLog
callback loop succeeds with the full invocation trace. -/
theorem fileRunPath_snd_ok (l : List CB) :
    ∀ p : String, (∀ cb ∈ l, isFileCB cb = true) →
      (fileRunPath l p).2 = .ok (l.map cbTag) := by
  induction l with
  | nil => intro p _; simp [fileRunPath]
  | cons cb rest ih =>
    intro p h
    have hcb : isFileCB cb = true := h cb (by simp)
    cases cb with
    | onFile t np =>
      have hr := ih (np.getD p) fun c hc => h c (by simp [hc])
      simp [fileRunPath, hr, Except.map, cbTag]
    | onFmt t => simp [isFileCB] at hcb
    | onStd t => simp [isFileCB] at hcb
    | onLogger t => simp [isFileCB] at hcb
    | other t => simp [isFileCB] at hcb

/-- When some file-logger callback has the wrong shape, the FileLog
callback loop returns the error of the source. -/
theorem fileRunPath_snd_bad (l : List CB) :
    ∀ p : String, (¬ ∀ cb ∈ l, isFileCB cb = true) →
      (fileRunPath l p).2 =
        .error "Init callbacks must have signature func(s *FileLog)" := by
  induction l with
  | nil => intro p h; simp at h
  | cons cb rest ih =>
    intro p h
    by_cases hcb : isFileCB cb = true
    · have hrest : ¬ ∀ c ∈ rest, isFileCB c = true := fun hall =>
        h fun c hc => by
          rcases List.mem_cons.mp hc with h1 | h2
          · exact h1 ▸ hcb
          · exact hall c h2
      cases cb with
      | onFile t np => simp [fileRunPath, ih (np.getD p) hrest, Except.map]
      | onFmt t => simp [isFileCB] at hcb
      | onStd t => simp [isFileCB] at hcb
      | onLogger t => simp [isFileCB] at hcb
      | other t => simp [isFileCB] at hcb
    · cases cb with
      | onFile t np => simp [isFileCB] at hcb
      | onFmt t => simp [fileRunPath]
      | onStd t => simp [fileRunPath]
      | onLogger t => simp [fileRunPath]
      | other t => simp [fileRunPath]

/-- When no callback overrides the path, the FileLog callback loop leaves
the path untouched and succeeds. -/
theorem fileRunPath_no_override (l : List CB) :
    ∀ p : String, (∀ cb ∈ l, ∃ t, cb = CB.onFile t none) →
      fileRunPath l p = (p, .ok (l.map cbTag)) := by
  induction l with
  | nil => intro p _; simp [fileRunPath]
  | cons cb rest ih =>
    intro p h
    obtain ⟨t, rfl⟩ := h cb (by simp)
    have hr := ih p fun c hc => h c (by simp [hc])
    simp [fileRunPath, hr, Except.map, cbTag]

/-- When every supplied value implements Logger, the Add and Set loop
initializes each and succeeds with the initialized values in order. -/
theorem initAll_ok (l : List Val) (h : ∀ v ∈ l, isLoggerVal v = true) :
    initAll l = .ok (l.map fun v => (initVal v).1) := by
  induction l with
  | nil => simp [initAll]
  | cons v rest ih =>
    have hv : isLoggerVal v = true := h v (by simp)
    have hr := ih fun x hx => h x (by simp [hx])
    simp [initAll, hv, hr, Except.map]

/-- When some supplied value does not implement Logger, the Add and Set
loop panics at its type assertion, wherever the value sits in the call. -/
theorem initAll_bad (l : List Val) (h : ∃ x ∈ l, isLoggerVal x = false) :
    initAll l = .error () := by
  induction l with
  | nil => simp at h
  | cons v rest ih =>
    by_cases hv : isLoggerVal v = true
    · obtain ⟨x, hx, hxf⟩ := h
      rcases List.mem_cons.mp hx with rfl | hm
      · rw [hxf] at hv; exact Bool.noConfusion hv
      · simp [initAll, hv, ih ⟨x, hm, hxf⟩, Except.map]
    · simp [initAll, hv]

/-- A backend member whose medium is available performs exactly one write,
carrying the line of the identical call. -/
theorem LoggerLog_backend (env : String → Bool) (m : Val) (g : GState)
    (level : String) (v : List String)
    (hb : isBackend m = true) (hf : fileOK env m = true) :
    ∃ evs g2, LoggerLog env m g level v = .ok (evs, g2) ∧
      (evs.filter isWrite).map evLine = [printlnLine level v] := by
  cases m with
  | fmtL i =>
    exact ⟨[.writeStd (printlnLine level v)], g, by simp [LoggerLog, FmtLogLog],
      by simp [isWrite, evLine]⟩
  | stdL i =>
    exact ⟨[.writeLog g.output (printlnLine level v)], g, by simp [LoggerLog, StdLogLog],
      by simp [isWrite, evLine]⟩
  | fileL i p =>
    have hp : env p = true := by simpa [fileOK] using hf
    exact ⟨[.fsOpen p, .setOutput (.fileH p false),
            .writeLog (.fileH p false) (printlnLine level v), .fsClose p],
      { output := LogWriter.fileH p true },
      by simp [LoggerLog, FileLogLog, hp], by simp [isWrite, evLine]⟩
  | stackL i ls => simp [isBackend] at hb
  | nonLogger => simp [isBackend] at hb

/-- A stack of available backend members performs one write per member,
in member order, each carrying the line of the identical call. -/
theorem StackLog_backends (env : String → Bool) (level : String) (v : List String) :
    ∀ (st : List Val) (g : GState),
      (∀ m ∈ st, isBackend m = true ∧ fileOK env m = true) →
      ∃ evs g2, StackLog env st g level v = .ok (evs, g2) ∧
        (evs.filter isWrite).map evLine =
          List.replicate st.length (printlnLine level v) := by
  intro st
  induction st with
  | nil => intro g _; exact ⟨[], g, by simp [StackLog], by simp⟩
  | cons m rest ih =>
    intro g h
    obtain ⟨hb, hf⟩ := h m (by simp)
    obtain ⟨e1, g1, he1, hw1⟩ := LoggerLog_backend env m g level v hb hf
    obtain ⟨e2, g2, he2, hw2⟩ := ih g1 fun x hx => h x (by simp [hx])
    refine ⟨e1 ++ e2, g2, ?_, ?_⟩
    · simp [StackLog, he1, he2, Bind.bind, Except.bind]
    · simp [List.filter_append, hw1, hw2, List.replicate_succ]

/-- Claim C1, counterexample: a FmtLog registered with a wrongly shaped
callback has a failing Init, yet Stack.Add returns no failure and appends
it to the member sequence, and Stack.Set keeps it likewise: the failure is
not propagated and the logger is added. -/
theorem stack_add_ignores_init_failure_cex :
    fmtInit [CB.other 0] =
      Except.error "Init callbacks must have signature func(s Logger)" ∧
    StackAdd [] [Val.fmtL [CB.other 0]] = Except.ok [Val.fmtL [CB.other 0]] ∧
    StackSet [Val.fmtL [CB.other 0]] = Except.ok [Val.fmtL [CB.other 0]] :=
  ⟨rfl, rfl, rfl⟩

/-- Claim C1, amended: Add invokes the Init of every supplied logger and
discards its result, the methods having no return value; all supplied
loggers are appended in call order to the end of the sequence whether or
not some Init failed; Set likewise replaces the sequence with the supplied
loggers after initializing each, discarding failures. -/
theorem stack_add_set_discard_init_failures :
    ∀ (cur l : List Val), (∀ x ∈ l, isLoggerVal x = true) →
      StackAdd cur l = Except.ok (cur ++ l.map fun x => (initVal x).1) ∧
      StackSet l = Except.ok (l.map fun x => (initVal x).1) := by
  intro cur l h
  have hall := initAll_ok l h
  exact ⟨by simp [StackAdd, hall, Except.map], by simp [StackSet, hall]⟩

theorem stack_add_set_discard_init_failures_wit :
    StackAdd [] [Val.fmtL [CB.other 1]] =
      Except.ok ([] ++ [Val.fmtL [CB.other 1]].map fun x => (initVal x).1) ∧
    StackSet [Val.fmtL [CB.other 1]] =
      Except.ok ([Val.fmtL [CB.other 1]].map fun x => (initVal x).1) :=
  stack_add_set_discard_init_failures [] [Val.fmtL [CB.other 1]] (by decide)

/-- Claim C2: evaluating the code at the failing input. Stack.Init on a
stack with no registered callbacks succeeds but sets the member sequence
to a one-element slice holding the nil interface value, not to the empty
sequence the specification states, and a subsequent Log call panics on
the nil member instead of being dispatched to nobody. -/
theorem stack_init_len1_nil_bug :
    stackInit [] = ([Val.nonLogger], Except.ok []) ∧
    ([Val.nonLogger] : List Val) ≠ [] ∧
    StackLog (fun _ => true) [Val.nonLogger] ⟨LogWriter.stdErr⟩ "Info" ["x"] =
      Except.error () := by
  refine ⟨rfl, by simp, ?_⟩
  simp [StackLog, LoggerLog, Bind.bind, Except.bind]

/-- Claim C6: OnInit replaces the pending-callback list: registering a
first sequence and then a second leaves exactly the second, the first set
discarded; a single registration likewise overwrites whatever was
pending. -/
theorem oninit_replaces :
    ∀ cur f g : List CB,
      LogBaseOnInit cur f = f ∧
      LogBaseOnInit (LogBaseOnInit cur f) g = g := by
  intro cur f g
  exact ⟨by simp [LogBaseOnInit], by simp [LogBaseOnInit]⟩

/-- Claim C10: under the precondition that every supplied value implements
Logger, Add and Set succeed, the assertion branch unreachable; every call
in which some argument does not satisfy Logger, the nil interface value
included, wherever it sits among the arguments and whatever the existing
member sequence, makes the unchecked type assertion panic rather than
return an error. -/
theorem stack_add_set_assert_logger :
    (∀ (cur l : List Val), (∀ x ∈ l, isLoggerVal x = true) →
      (∃ r, StackAdd cur l = Except.ok r) ∧ ∃ r, StackSet l = Except.ok r) ∧
    ∀ (cur l : List Val), (∃ x ∈ l, isLoggerVal x = false) →
      StackAdd cur l = Except.error () ∧ StackSet l = Except.error () := by
  constructor
  · intro cur l h
    have hall := initAll_ok l h
    refine ⟨⟨cur ++ l.map fun v => (initVal v).1, ?_⟩,
      ⟨l.map fun v => (initVal v).1, ?_⟩⟩
    · simp [StackAdd, hall, Except.map]
    · simp [StackSet, hall]
  · intro cur l h
    have hbad := initAll_bad l h
    exact ⟨by simp [StackAdd, hbad, Except.map], by simp [StackSet, hbad]⟩

theorem stack_add_set_assert_logger_wit :
    ((∃ r, StackAdd [] [Val.stdL []] = Except.ok r) ∧
      ∃ r, StackSet [Val.stdL []] = Except.ok r) ∧
    StackAdd [Val.stdL []] [Val.fmtL [], Val.nonLogger] = Except.error () ∧
    StackSet [Val.fmtL [], Val.nonLogger] = Except.error () :=
  ⟨stack_add_set_assert_logger.1 [] [Val.stdL []] (by decide),
   stack_add_set_assert_logger.2 [Val.stdL []] [Val.fmtL [], Val.nonLogger]
     (by decide)⟩

/-- Claim C3: for a Stack of N members that are backends with available
media, a single Log call (and each severity method, which forwards to Log
with its fixed label) performs exactly N writes, one per member in
insertion order, every write carrying the line of the identical call; a
Stack with no members accepts every log call as a silent no-op. -/
theorem stack_log_fanout :
    (∀ (env : String → Bool) (st : List Val) (g : GState)
        (level : String) (v : List String),
      (∀ m ∈ st, isBackend m = true ∧ fileOK env m = true) →
      ∃ evs g2, StackLog env st g level v = Except.ok (evs, g2) ∧
        (evs.filter isWrite).map evLine =
          List.replicate st.length (printlnLine level v)) ∧
    ∀ (env : String → Bool) (g : GState) (level : String) (v : List String),
      StackLog env [] g level v = Except.ok ([], g) := by
  constructor
  · intro env st g level v h
    exact StackLog_backends env level v st g h
  · intro env g level v
    simp [StackLog]

theorem stack_log_fanout_wit :
    ∃ evs g2,
      StackLog (fun _ => true) [Val.fmtL [], Val.stdL [], Val.fileL [] "p"]
          ⟨LogWriter.stdErr⟩ "Info" ["x"] = Except.ok (evs, g2) ∧
      (evs.filter isWrite).map evLine =
        List.replicate ([Val.fmtL [], Val.stdL [], Val.fileL [] "p"] : List Val).length
          (printlnLine "Info" ["x"]) :=
  stack_log_fanout.1 (fun _ => true) [Val.fmtL [], Val.stdL [], Val.fileL [] "p"]
    ⟨LogWriter.stdErr⟩ "Info" ["x"] (by decide)

/-- Claim C4, counterexample: with two arguments the written line uses the
space-separated Go slice rendering, not a comma-separated list: the line
is "Arbitrary [a b]" and not "Arbitrary [a, b]". -/
theorem backend_log_not_comma_cex :
    FmtLogLog "Arbitrary" ["a", "b"] = [Ev.writeStd "Arbitrary [a b]\n"] ∧
    "Arbitrary [a b]\n" ≠ "Arbitrary [a, b]\n" := by
  constructor
  · decide
  · decide

/-- Claim C4, amended: for the stream, system-log and file backends, Log
writes exactly one line consisting of the level label, one space, then the
ordered argument values rendered as a bracketed, space-separated list, the
default Go rendering of a slice, followed by a newline; the caller
supplied label passes through verbatim, so Log with level Arbitrary and
the single value This is a generic message yields the line
Arbitrary [This is a generic message] plus the terminator. -/
theorem backend_log_line_format :
    ∀ (g : GState) (level : String) (v : List String)
      (env : String → Bool) (p : String),
      FmtLogLog level v =
        [Ev.writeStd (level ++ " " ++ ("[" ++ String.intercalate " " v ++ "]") ++ "\n")] ∧
      StdLogLog g level v =
        ([Ev.writeLog g.output
            (level ++ " " ++ ("[" ++ String.intercalate " " v ++ "]") ++ "\n")], g) ∧
      (env p = true →
        FileLogLog env p g level v =
          Except.ok ([Ev.fsOpen p, Ev.setOutput (LogWriter.fileH p false),
              Ev.writeLog (LogWriter.fileH p false)
                (level ++ " " ++ ("[" ++ String.intercalate " " v ++ "]") ++ "\n"),
              Ev.fsClose p],
            { output := LogWriter.fileH p true })) ∧
      printlnLine "Arbitrary" ["This is a generic message"] =
        "Arbitrary [This is a generic message]\n" := by
  intro g level v env p
  refine ⟨rfl, rfl, ?_, by decide⟩
  intro hp
  simp [FileLogLog, hp, printlnLine, renderSlice]

theorem backend_log_line_format_wit :
    FmtLogLog "Arbitrary" ["This is a generic message"] =
      [Ev.writeStd ("Arbitrary" ++ " " ++
        ("[" ++ String.intercalate " " ["This is a generic message"] ++ "]") ++ "\n")] ∧
    StdLogLog ⟨LogWriter.stdErr⟩ "Arbitrary" ["This is a generic message"] =
      ([Ev.writeLog (GState.mk LogWriter.stdErr).output
          ("Arbitrary" ++ " " ++
            ("[" ++ String.intercalate " " ["This is a generic message"] ++ "]") ++ "\n")],
        ⟨LogWriter.stdErr⟩) ∧
    FileLogLog (fun _ => true) "./owtorg-logger" ⟨LogWriter.stdErr⟩
        "Arbitrary" ["This is a generic message"] =
      Except.ok ([Ev.fsOpen "./owtorg-logger",
          Ev.setOutput (LogWriter.fileH "./owtorg-logger" false),
          Ev.writeLog (LogWriter.fileH "./owtorg-logger" false)
            ("Arbitrary" ++ " " ++
              ("[" ++ String.intercalate " " ["This is a generic message"] ++ "]") ++ "\n"),
          Ev.fsClose "./owtorg-logger"],
        { output := LogWriter.fileH "./owtorg-logger" true }) ∧
    printlnLine "Arbitrary" ["This is a generic message"] =
      "Arbitrary [This is a generic message]\n" := by
  have h := backend_log_line_format ⟨LogWriter.stdErr⟩ "Arbitrary"
    ["This is a generic message"] (fun _ => true) "./owtorg-logger"
  exact ⟨h.1, h.2.1, h.2.2.1 rfl, h.2.2.2⟩

/-- Claim C5: for each concrete logger type, Init succeeds, applying the
registered callbacks to the instance in registration order, exactly when
every registered callback matches the per-type shape, the func of the own
concrete type for the backends and the func of the abstract Logger type
for the composite, and fails with the signature error otherwise; the Log
methods return no error at all, producing only write events. -/
theorem init_callback_shape_check :
    ∀ (l : List CB) (g : GState) (level : String) (v : List String),
      (fmtInit l = Except.ok (l.map cbTag) ↔ ∀ cb ∈ l, isFmtCB cb = true) ∧
      (stdInit l = Except.ok (l.map cbTag) ↔ ∀ cb ∈ l, isStdCB cb = true) ∧
      ((fileInit l).2 = Except.ok (l.map cbTag) ↔ ∀ cb ∈ l, isFileCB cb = true) ∧
      ((stackInit l).2 = Except.ok (l.map cbTag) ↔ ∀ cb ∈ l, isLoggerCB cb = true) ∧
      FmtLogLog level v = [Ev.writeStd (printlnLine level v)] ∧
      StdLogLog g level v = ([Ev.writeLog g.output (printlnLine level v)], g) := by
  intro l g level v
  refine ⟨runCBs_ok_iff _ _ l, runCBs_ok_iff _ _ l, ?_, runCBs_ok_iff _ _ l, rfl, rfl⟩
  constructor
  · intro heq
    by_contra hbad
    rw [show (fileInit l).2 = _ from fileRunPath_snd_bad l "./owtorg-logger" hbad] at heq
    exact Except.noConfusion heq
  · exact fileRunPath_snd_ok l "./owtorg-logger"

/-- Claim C7: when Init runs with no callback that overrides the path,
the configured log path equals ./owtorg-logger, and a subsequent Log call
on the resulting path opens, writes and closes that very file, provided
the environment can open it. -/
theorem filelog_default_path :
    ∀ l : List CB, (∀ cb ∈ l, ∃ t, cb = CB.onFile t none) →
      fileInit l = ("./owtorg-logger", Except.ok (l.map cbTag)) ∧
      ∀ (env : String → Bool) (g : GState) (level : String) (v : List String),
        env "./owtorg-logger" = true →
        FileLogLog env (fileInit l).1 g level v =
          Except.ok ([Ev.fsOpen "./owtorg-logger",
              Ev.setOutput (LogWriter.fileH "./owtorg-logger" false),
              Ev.writeLog (LogWriter.fileH "./owtorg-logger" false) (printlnLine level v),
              Ev.fsClose "./owtorg-logger"],
            { output := LogWriter.fileH "./owtorg-logger" true }) := by
  intro l h
  have hpath := fileRunPath_no_override l "./owtorg-logger" h
  refine ⟨hpath, ?_⟩
  intro env g level v henv
  rw [show (fileInit l).1 = "./owtorg-logger" from by rw [fileInit, hpath]]
  simp [FileLogLog, henv]

theorem filelog_default_path_wit :
    fileInit [] = ("./owtorg-logger", Except.ok (([] : List CB).map cbTag)) ∧
    FileLogLog (fun _ => true) (fileInit []).1 ⟨LogWriter.stdErr⟩ "Info" ["x"] =
      Except.ok ([Ev.fsOpen "./owtorg-logger",
          Ev.setOutput (LogWriter.fileH "./owtorg-logger" false),
          Ev.writeLog (LogWriter.fileH "./owtorg-logger" false) (printlnLine "Info" ["x"]),
          Ev.fsClose "./owtorg-logger"],
        { output := LogWriter.fileH "./owtorg-logger" true }) := by
  have h := filelog_default_path [] (by simp)
  exact ⟨h.1, h.2 (fun _ => true) ⟨LogWriter.stdErr⟩ "Info" ["x"] rfl⟩

/-- Claim C8: when the environment can open the configured path, a Log
call on a FileLog opens the file first, performs exactly one write, and
closes the file as its last action before returning, so no open handle
survives the call; when the open fails, the call panics, halting the
process, instead of returning a recoverable error. -/
theorem filelog_open_append_close :
    ∀ (env : String → Bool) (p : String) (g : GState)
      (level : String) (v : List String),
      (env p = true →
        ∃ evs, FileLogLog env p g level v =
            Except.ok (evs, { output := LogWriter.fileH p true }) ∧
          evs.head? = some (Ev.fsOpen p) ∧
          (evs.filter isWrite).map evLine = [printlnLine level v] ∧
          evs.getLast? = some (Ev.fsClose p)) ∧
      (env p = false → FileLogLog env p g level v = Except.error ()) := by
  intro env p g level v
  constructor
  · intro hp
    refine ⟨[Ev.fsOpen p, Ev.setOutput (LogWriter.fileH p false),
        Ev.writeLog (LogWriter.fileH p false) (printlnLine level v),
        Ev.fsClose p], ?_, rfl, ?_, ?_⟩
    · simp [FileLogLog, hp]
    · simp [isWrite, evLine]
    · simp [List.getLast?]
  · intro hp
    simp [FileLogLog, hp]

theorem filelog_open_append_close_wit :
    (∃ evs, FileLogLog (fun s => s == "ok") "ok" ⟨LogWriter.stdErr⟩ "Info" ["x"] =
        Except.ok (evs, { output := LogWriter.fileH "ok" true }) ∧
      evs.head? = some (Ev.fsOpen "ok") ∧
      (evs.filter isWrite).map evLine = [printlnLine "Info" ["x"]] ∧
      evs.getLast? = some (Ev.fsClose "ok")) ∧
    FileLogLog (fun s => s == "ok") "bad" ⟨LogWriter.stdErr⟩ "Info" ["x"] =
      Except.error () :=
  ⟨(filelog_open_append_close (fun s => s == "ok") "ok" ⟨LogWriter.stdErr⟩
      "Info" ["x"]).1 (by decide),
   (filelog_open_append_close (fun s => s == "ok") "bad" ⟨LogWriter.stdErr⟩
      "Info" ["x"]).2 (by decide)⟩

/-- Claim C9: a successful FileLog Log call leaves the process-global log
output pointing at the file handle it opened and already closed, never
restoring the previous output, so every subsequent StdLog call writes
through that closed handle of the file path instead of the standard
stream. -/
theorem filelog_redirects_global_output :
    ∀ (env : String → Bool) (p : String) (g : GState)
      (level : String) (v : List String),
      env p = true →
      (∃ evs, FileLogLog env p g level v =
          Except.ok (evs, { output := LogWriter.fileH p true })) ∧
      (∀ (level2 : String) (v2 : List String),
        StdLogLog { output := LogWriter.fileH p true } level2 v2 =
          ([Ev.writeLog (LogWriter.fileH p true) (printlnLine level2 v2)],
            { output := LogWriter.fileH p true })) ∧
      LogWriter.fileH p true ≠ LogWriter.stdErr := by
  intro env p g level v hp
  refine ⟨⟨[Ev.fsOpen p, Ev.setOutput (LogWriter.fileH p false),
      Ev.writeLog (LogWriter.fileH p false) (printlnLine level v),
      Ev.fsClose p], by simp [FileLogLog, hp]⟩, fun level2 v2 => rfl, by simp⟩

theorem filelog_redirects_global_output_wit :
    (∃ evs, FileLogLog (fun _ => true) "./owtorg-logger" ⟨LogWriter.stdErr⟩
        "Info" ["x"] =
        Except.ok (evs, { output := LogWriter.fileH "./owtorg-logger" true })) ∧
    (∀ (level2 : String) (v2 : List String),
      StdLogLog { output := LogWriter.fileH "./owtorg-logger" true } level2 v2 =
        ([Ev.writeLog (LogWriter.fileH "./owtorg-logger" true) (printlnLine level2 v2)],
          { output := LogWriter.fileH "./owtorg-logger" true })) ∧
    LogWriter.fileH "./owtorg-logger" true ≠ LogWriter.stdErr :=
  filelog_redirects_global_output (fun _ => true) "./owtorg-logger"
    ⟨LogWriter.stdErr⟩ "Info" ["x"] rfl
